import Mathlib

/-!
Verification of the `pubsublib` Go pub/sub HTTP client (`src/client.go`).

The source holds two near-duplicate copies of the client (one with an
exported `HttpClient` field and a header-carrying `PublishMessage`, one
with an unexported `httpClient` field and a header-less `PublishMessage`);
apart from field visibility, constructor name and the `PublishMessage`
signature the method bodies are identical, so a single embedding covers
both.  Go struct fields are rendered with their JSON wire names
(`Name` -> `name`, `Data` -> `data`, ...) since `Type` is not a usable
Lean field name.

The HTTP transport (`*http.Client`) is modelled as a function from a
request to either a transport error or a response; every operation
returns its result together with the ordered list of HTTP requests it
issued, so "no network call" and "exactly one request" claims are
expressible.  JSON bodies are modelled as JSON values (an inductive
`Json`); a response body is `Except String (Option Json)` where
`.error e` models an `io.ReadAll` failure, `.ok none` models body text
that is not valid JSON, and `.ok (some j)` models a body whose JSON
value is `j`.
-/

/-- JSON values, as produced/consumed by Go's `encoding/json`. -/
inductive Json where
  | null : Json
  | bool (b : Bool) : Json
  | num (n : Int) : Json
  | str (s : String) : Json
  | arr (elems : List Json) : Json
  | obj (fields : List (String × Json)) : Json
deriving Repr

/-- `Topic` (`src/client.go:31`): fields `Name`/`Type`, wire names
`name`/`type`. -/
structure Topic where
  name : String
  type : String
deriving Repr, DecidableEq

/-- `Subscription` (`src/client.go:36`). -/
structure Subscription where
  name : String
  type : String
deriving Repr, DecidableEq

/-- `Message` (`src/client.go:41`): one field `Data`, wire name `data`. -/
structure Message where
  data : String
deriving Repr, DecidableEq

/-- `PullResponse` (`src/client.go:19`): field `Message`, wire name
`message`. -/
structure PullResponse where
  message : Message
deriving Repr, DecidableEq

/-- `ListTopicsResponse` (`src/client.go:23`): field `Topics`, wire name
`topics`. -/
structure ListTopicsResponse where
  topics : List String
deriving Repr, DecidableEq

/-- `GetMessagesResponse` (`src/client.go:27`): field `Messages`, wire
name `messages`. -/
structure GetMessagesResponse where
  messages : List Message
deriving Repr, DecidableEq

/-- An outgoing HTTP request: method, full URL, headers and optional
JSON body. -/
structure Request where
  method : String
  url : String
  headers : List (String × String)
  body : Option Json
deriving Repr

/-- An HTTP response as seen by the client: the status code and the
body.  The body is `.error e` when `io.ReadAll` (or the response-body
reader) fails, `.ok none` when the body text is not valid JSON, and
`.ok (some j)` when it parses to the JSON value `j`. -/
structure Response where
  statusCode : Nat
  body : Except String (Option Json)

/-- The transport: `cli.HttpClient` issuing one request.  `.error e`
models a transport failure (connection refused, timeout, ...). -/
def Serve : Type := Request → Except String Response

/-- `Client` (`src/client.go:14`): the base URL.  The `HttpClient`
field is modelled as the `Serve` argument each operation takes. -/
structure Client where
  BaseURL : String

/-! ### JSON encoding (`json.Marshal`)

`json.Marshal` cannot fail on these struct types (all fields are plain
strings), so the `err != nil` branches after `Marshal` in the source are
dead and encoding is total here. -/

/-- `json.Marshal` of a `Topic`. -/
def Topic.toJson (t : Topic) : Json :=
  .obj [("name", .str t.name), ("type", .str t.type)]

/-- `json.Marshal` of a `Message`. -/
def Message.toJson (m : Message) : Json :=
  .obj [("data", .str m.data)]

/-! ### JSON decoding (`json.Unmarshal`)

Go's `json.Unmarshal` into a struct: the body must be a JSON object (or
`null`, which leaves the zero value); unknown object fields are ignored;
a missing field leaves the target field at its zero value; for a
duplicated key the last occurrence wins; `null` for a field leaves the
zero value; a field of the wrong JSON type is an error. -/

/-- Look up a key in a JSON object's field list; Go keeps the value of
the LAST occurrence of a duplicated key. -/
def jsonLookup (fields : List (String × Json)) (key : String) : Option Json :=
  ((fields.filter (fun p => p.1 == key)).getLast?).map (fun p => p.2)

/-- Decode a JSON value into a `Message` (target starts at its zero
value, as in `json.Unmarshal`). -/
def decodeMessage : Json → Except String Message
  | .null => .ok ⟨""⟩
  | .obj fields =>
    match jsonLookup fields "data" with
    | none => .ok ⟨""⟩
    | some .null => .ok ⟨""⟩
    | some (.str s) => .ok ⟨s⟩
    | some _ => .error "json: cannot unmarshal value into Go struct field Message.data of type string"
  | _ => .error "json: cannot unmarshal value into Go value of type pubsubclient.Message"

/-- Decode a JSON value into a `PullResponse`. -/
def decodePullResponse : Json → Except String PullResponse
  | .null => .ok ⟨⟨""⟩⟩
  | .obj fields =>
    match jsonLookup fields "message" with
    | none => .ok ⟨⟨""⟩⟩
    | some j => (decodeMessage j).map (fun m => ⟨m⟩)
  | _ => .error "json: cannot unmarshal value into Go value of type pubsubclient.PullResponse"

/-- Decode the elements of a JSON array into Go strings, left to right,
stopping at the first ill-typed element (a `null` element leaves the
zero string). -/
def decodeStringElems : List Json → Except String (List String)
  | [] => .ok []
  | .str s :: rest => (decodeStringElems rest).map (fun l => s :: l)
  | .null :: rest => (decodeStringElems rest).map (fun l => "" :: l)
  | _ :: _ => .error "json: cannot unmarshal value into Go value of type string"

/-- Decode a JSON value into a Go `[]string` (a `null` slice is the nil
slice, modelled as `[]`). -/
def decodeStringList : Json → Except String (List String)
  | .null => .ok []
  | .arr elems => decodeStringElems elems
  | _ => .error "json: cannot unmarshal value into Go value of type []string"

/-- Decode the elements of a JSON array into `Message`s, left to right,
stopping at the first element that fails to decode. -/
def decodeMessageElems : List Json → Except String (List Message)
  | [] => .ok []
  | e :: rest =>
    match decodeMessage e with
    | .ok m => (decodeMessageElems rest).map (fun l => m :: l)
    | .error err => .error err

/-- Decode a JSON value into a Go `[]Message`. -/
def decodeMessageList : Json → Except String (List Message)
  | .null => .ok []
  | .arr elems => decodeMessageElems elems
  | _ => .error "json: cannot unmarshal value into Go value of type []pubsubclient.Message"

/-- Decode a JSON value into a `ListTopicsResponse`. -/
def decodeListTopicsResponse : Json → Except String ListTopicsResponse
  | .null => .ok ⟨[]⟩
  | .obj fields =>
    match jsonLookup fields "topics" with
    | none => .ok ⟨[]⟩
    | some j => (decodeStringList j).map (fun ts => ⟨ts⟩)
  | _ => .error "json: cannot unmarshal value into Go value of type pubsubclient.ListTopicsResponse"

/-- Decode a JSON value into a `GetMessagesResponse`. -/
def decodeGetMessagesResponse : Json → Except String GetMessagesResponse
  | .null => .ok ⟨[]⟩
  | .obj fields =>
    match jsonLookup fields "messages" with
    | none => .ok ⟨[]⟩
    | some j => (decodeMessageList j).map (fun ms => ⟨ms⟩)
  | _ => .error "json: cannot unmarshal value into Go value of type pubsubclient.GetMessagesResponse"

/-- `json.Unmarshal` of a raw body (`none` = body text that is not
valid JSON) into a `PullResponse`. -/
def unmarshalPullResponse : Option Json → Except String PullResponse
  | none => .error "invalid character in JSON input"
  | some j => decodePullResponse j

/-- `json.Unmarshal` of a raw body into a `ListTopicsResponse`. -/
def unmarshalListTopicsResponse : Option Json → Except String ListTopicsResponse
  | none => .error "invalid character in JSON input"
  | some j => decodeListTopicsResponse j

/-- `json.Decoder.Decode` of a raw body into a `GetMessagesResponse`. -/
def unmarshalGetMessagesResponse : Option Json → Except String GetMessagesResponse
  | none => .error "invalid character in JSON input"
  | some j => decodeGetMessagesResponse j

/-! ### Topic-name validation

`validation.Validate(topic, validation.Required, validation.Length(1, 255))`
from ozzo-validation: `Required` fails on the empty string;
`Length(1, 255)` is skipped on an empty value and otherwise compares
Go's `len(topic)` — the UTF-8 byte length — against the bounds.  Net
effect: an error exactly when the name is empty or its byte length
exceeds 255. -/

/-- ozzo-validation of a topic name; `some msg` is the validation
error message. -/
def validateTopic (topic : String) : Option String :=
  if topic = "" then some "cannot be blank"
  else if 255 < topic.utf8ByteSize then some "the length must be between 1 and 255"
  else none

/-! ### Client operations

Each operation takes the transport and returns its Go result paired
with the ordered list of HTTP requests it issued. -/

/-- The request `CreateTopic` issues: `POST {base}/topics` with the
topic's JSON body (`http.Client.Post` sets the Content-Type). -/
def createTopicRequest (cli : Client) (topic : Topic) : Request :=
  { method := "POST", url := cli.BaseURL ++ "/topics",
    headers := [("Content-Type", "application/json")],
    body := some topic.toJson }

/-- `Client.CreateTopic` (`src/client.go:61`): POST the topic JSON,
succeed only on status 201. -/
def Client.CreateTopic (cli : Client) (serve : Serve) (topic : Topic) :
    Except String Unit × List Request :=
  let req := createTopicRequest cli topic
  match serve req with
  | .error e => (.error e, [req])
  | .ok resp =>
    if resp.statusCode ≠ 201 then
      (.error ("error creating topic: expected status code 201, got "
        ++ toString resp.statusCode), [req])
    else (.ok (), [req])

/-- The request `ListTopics` issues: `GET {base}/topics`. -/
def listTopicsRequest (cli : Client) : Request :=
  { method := "GET", url := cli.BaseURL ++ "/topics", headers := [], body := none }

/-- `Client.ListTopics` (`src/client.go:147`): GET, read the body,
require status 200, decode `ListTopicsResponse`, return the names. -/
def Client.ListTopics (cli : Client) (serve : Serve) :
    Except String (List String) × List Request :=
  let req := listTopicsRequest cli
  match serve req with
  | .error e => (.error e, [req])
  | .ok resp =>
    match resp.body with
    | .error e => (.error e, [req])
    | .ok raw =>
      if resp.statusCode ≠ 200 then
        (.error ("failed to list topics, status code: " ++ toString resp.statusCode), [req])
      else
        match unmarshalListTopicsResponse raw with
        | .error e => (.error e, [req])
        | .ok r => (.ok r.topics, [req])

/-- `Client.TopicExists` (`src/client.go:172`): validate the name, list
the topics, linear membership scan. -/
def Client.TopicExists (cli : Client) (serve : Serve) (topic : String) :
    Except String Bool × List Request :=
  match validateTopic topic with
  | some e => (.error ("invalid topic: " ++ e), [])
  | none =>
    match cli.ListTopics serve with
    | (.error e, log) => (.error ("failed to list topics: " ++ e), log)
    | (.ok topics, log) => (.ok (topics.contains topic), log)

/-- `Client.EnsureTopicExists` (`src/client.go:192`): validate, check
existence via `TopicExists`, create `Topic\x7bName: topic\x7d` (zero
`Type`) when absent. -/
def Client.EnsureTopicExists (cli : Client) (serve : Serve) (topic : String) :
    Except String Unit × List Request :=
  match validateTopic topic with
  | some e => (.error ("invalid topic: " ++ e), [])
  | none =>
    match cli.TopicExists serve topic with
    | (.error e, log) => (.error e, log)
    | (.ok ex, log) =>
      if !ex then
        match cli.CreateTopic serve ⟨topic, ""⟩ with
        | (.error e, log2) => (.error ("failed to create topic: " ++ e), log ++ log2)
        | (.ok _, log2) => (.ok (), log ++ log2)
      else (.ok (), log)

/-- The request `PullMessage` issues:
`GET {base}/subscriptions/{sub}/pull`. -/
def pullMessageRequest (cli : Client) (subscriptionName : String) : Request :=
  { method := "GET",
    url := cli.BaseURL ++ "/subscriptions/" ++ subscriptionName ++ "/pull",
    headers := [], body := none }

/-- What `PullMessage` does with a received response body: read it,
decode it as `PullResponse`, return the wrapped message — the status
code is never consulted. -/
def pullDecodeBody (body : Except String (Option Json)) : Except String Message :=
  match body with
  | .error e => .error e
  | .ok raw =>
    match unmarshalPullResponse raw with
    | .error e => .error e
    | .ok pr => .ok pr.message

/-- `Client.PullMessage` (`src/client.go:126`): GET, read body,
unmarshal as `PullResponse` (no status check), return the message. -/
def Client.PullMessage (cli : Client) (serve : Serve) (subscriptionName : String) :
    Except String Message × List Request :=
  let req := pullMessageRequest cli subscriptionName
  match serve req with
  | .error e => (.error e, [req])
  | .ok resp => (pullDecodeBody resp.body, [req])

/-- A valid HTTP header-field byte, as in Go textproto's token table:
an ASCII letter or digit or one of the listed punctuation marks (the
codes 39 and 96 are the apostrophe and the backquote characters). -/
def isTokenChar (c : Char) : Bool :=
  ('a' ≤ c && c ≤ 'z') || ('A' ≤ c && c ≤ 'Z') || ('0' ≤ c && c ≤ '9') ||
  c = '!' || c = '#' || c = '$' || c = '%' || c = '&' || c.toNat = 39 ||
  c = '*' || c = '+' || c = '-' || c = '.' || c = '^' || c = '_' ||
  c.toNat = 96 || c = '|' || c = '~'

/-- The canonicalization loop of `textproto.CanonicalMIMEHeaderKey`:
uppercase a letter at the start and after each dash, lowercase every
other letter. -/
def canonicalizeChars : Bool → List Char → List Char
  | _, [] => []
  | upper, c :: rest =>
    let c2 :=
      if upper && ('a' ≤ c && c ≤ 'z') then Char.ofNat (c.toNat - 32)
      else if !upper && ('A' ≤ c && c ≤ 'Z') then Char.ofNat (c.toNat + 32)
      else c
    c2 :: canonicalizeChars (c2 = '-') rest

/-- `textproto.CanonicalMIMEHeaderKey`: if the key contains any
invalid header-field byte it is returned unchanged, otherwise it is
rewritten to canonical MIME form (first letter and letters after a
dash uppercased, the rest lowercased). -/
def canonicalMIMEHeaderKey (s : String) : String :=
  if s.data.all (fun c => isTokenChar c) then ⟨canonicalizeChars true s.data⟩
  else s

/-- `http.Header.Set`: canonicalize the key with
`textproto.CanonicalMIMEHeaderKey`, then replace any existing values
stored under that canonical key with the single given value. -/
def Request.setHeader (r : Request) (key value : String) : Request :=
  let ck := canonicalMIMEHeaderKey key
  { r with headers := (r.headers.filter (fun p => p.1 ≠ ck)) ++ [(ck, value)] }

/-- The request the header-carrying `PublishMessage` sends:
`POST {base}/topics/{topic}/publish` built by `http.NewRequest` (no
implicit Content-Type) with every caller header set on it.  The Go
`map[string]string` is modelled as an association list with distinct
keys. -/
def publishRequest (cli : Client) (topicName : String) (message : Message)
    (headers : List (String × String)) : Request :=
  headers.foldl (fun r kv => r.setHeader kv.1 kv.2)
    { method := "POST", url := cli.BaseURL ++ "/topics/" ++ topicName ++ "/publish",
      headers := [], body := some message.toJson }

/-- `Client.PublishMessage` (`src/client.go:97`, the header-carrying
variant): build the request, set each caller header, send, require
status 201. -/
def Client.PublishMessage (cli : Client) (serve : Serve) (topicName : String)
    (message : Message) (headers : List (String × String)) :
    Except String Unit × List Request :=
  let req := publishRequest cli topicName message headers
  match serve req with
  | .error e => (.error e, [req])
  | .ok resp =>
    if resp.statusCode ≠ 201 then
      (.error ("error publishing message: expected status code 201, got "
        ++ toString resp.statusCode), [req])
    else (.ok (), [req])

/-- The request `GetMessages` issues: `GET {base}/topics/{topic}/messages`
with an explicit Content-Type header. -/
def getMessagesRequest (cli : Client) (topic : String) : Request :=
  { method := "GET", url := cli.BaseURL ++ "/topics/" ++ topic ++ "/messages",
    headers := [("Content-Type", "application/json")], body := none }

/-- `Client.GetMessages` (`src/client.go:213`): validate, GET with
Content-Type header, require status 200, decode
`GetMessagesResponse`. -/
def Client.GetMessages (cli : Client) (serve : Serve) (topic : String) :
    Except String (List Message) × List Request :=
  match validateTopic topic with
  | some e => (.error ("invalid topic: " ++ e), [])
  | none =>
    let req := getMessagesRequest cli topic
    match serve req with
    | .error e => (.error ("failed to send request: " ++ e), [req])
    | .ok resp =>
      if resp.statusCode ≠ 200 then
        (.error ("failed to get messages, status code: " ++ toString resp.statusCode), [req])
      else
        match resp.body with
        | .error e => (.error ("failed to decode response: " ++ e), [req])
        | .ok raw =>
          match unmarshalGetMessagesResponse raw with
          | .error e => (.error ("failed to decode response: " ++ e), [req])
          | .ok r => (.ok r.messages, [req])

/-! ### Helper lemmas -/

/-- `ListTopics` always issues exactly the one GET request, whatever
the transport does. -/
theorem listTopics_requests (cli : Client) (serve : Serve) :
    (cli.ListTopics serve).2 = [listTopicsRequest cli] := by
  simp only [Client.ListTopics]
  rcases h : serve (listTopicsRequest cli) with e | resp
  · simp [h]
  · rcases hb : resp.body with e | raw
    · simp [h, hb]
    · rcases hu : unmarshalListTopicsResponse raw with e | r <;>
        by_cases h200 : resp.statusCode = 200 <;> simp [h, hb, hu, h200]

/-- `CreateTopic` always issues exactly the one POST request. -/
theorem createTopic_requests (cli : Client) (serve : Serve) (topic : Topic) :
    (cli.CreateTopic serve topic).2 = [createTopicRequest cli topic] := by
  simp only [Client.CreateTopic]
  rcases h : serve (createTopicRequest cli topic) with e | resp
  · simp [h]
  · by_cases h201 : resp.statusCode = 201 <;> simp [h, h201]

/-- Decoding the JSON encoding of a `Message` recovers the message. -/
theorem decodeMessage_toJson (m : Message) : decodeMessage m.toJson = .ok m := by
  simp [Message.toJson, decodeMessage, jsonLookup]

/-- An all-strings JSON array decodes to exactly those strings, in
order. -/
theorem decodeStringElems_strs (names : List String) :
    decodeStringElems (names.map Json.str) = .ok names := by
  induction names with
  | nil => rfl
  | cons n ns ih => simp [decodeStringElems, ih, Except.map]

/-- An array of one-field `data` objects decodes to exactly those
messages, in order. -/
theorem decodeMessageElems_objs (datas : List String) :
    decodeMessageElems (datas.map (fun s => Json.obj [("data", Json.str s)])) =
      .ok (datas.map Message.mk) := by
  induction datas with
  | nil => rfl
  | cons d ds ih =>
    have hd := decodeMessage_toJson ⟨d⟩
    simp only [Message.toJson] at hd
    simp [decodeMessageElems, hd, ih, Except.map]

/-! ### Concrete clients and transports used by the witnesses -/

/-- A concrete client for witness instantiations. -/
def witnessClient : Client := ⟨"http://pubsub.local"⟩

/-- A transport that always fails before any response is produced. -/
def serveNever : Serve := fun _ => .error "connection refused"

/-! ### Claims -/

/-- C1: `CreateTopic` returns success if and only if the HTTP response
has status 201: on a 201 response it returns no error, on any other
status it returns an error naming the observed status code, and a
transport failure is returned as an error as-is (serialization of a
`Topic` cannot fail). -/
theorem createTopic_succeeds_iff_201 (cli : Client) (serve : Serve) (topic : Topic) :
    match serve (createTopicRequest cli topic) with
    | .error e => (cli.CreateTopic serve topic).1 = .error e
    | .ok resp =>
      ((cli.CreateTopic serve topic).1 = .ok () ↔ resp.statusCode = 201) ∧
      (resp.statusCode ≠ 201 →
        (cli.CreateTopic serve topic).1 =
          .error ("error creating topic: expected status code 201, got "
            ++ toString resp.statusCode)) := by
  rcases h : serve (createTopicRequest cli topic) with e | resp
  · simp [Client.CreateTopic, h]
  · by_cases h201 : resp.statusCode = 201 <;> simp [Client.CreateTopic, h, h201]

/-- Witness for C1 at a concrete client, transport and topic. -/
theorem createTopic_succeeds_iff_201_witness :
    match serveNever (createTopicRequest witnessClient ⟨"t", ""⟩) with
    | .error e => (witnessClient.CreateTopic serveNever ⟨"t", ""⟩).1 = .error e
    | .ok resp =>
      ((witnessClient.CreateTopic serveNever ⟨"t", ""⟩).1 = .ok () ↔ resp.statusCode = 201) ∧
      (resp.statusCode ≠ 201 →
        (witnessClient.CreateTopic serveNever ⟨"t", ""⟩).1 =
          .error ("error creating topic: expected status code 201, got "
            ++ toString resp.statusCode)) :=
  createTopic_succeeds_iff_201 witnessClient serveNever ⟨"t", ""⟩

/-- C2: for every topic name that is empty or longer than 255 bytes
(Go's `len`), `TopicExists` and `EnsureTopicExists` return a validation
error and issue no HTTP request at all. -/
theorem invalid_topic_no_request (cli : Client) (serve : Serve) (t : String)
    (h : t = "" ∨ 255 < t.utf8ByteSize) :
    (∃ e, (cli.TopicExists serve t).1 = .error ("invalid topic: " ++ e)) ∧
    (cli.TopicExists serve t).2 = [] ∧
    (∃ e, (cli.EnsureTopicExists serve t).1 = .error ("invalid topic: " ++ e)) ∧
    (cli.EnsureTopicExists serve t).2 = [] := by
  have hv : ∃ m, validateTopic t = some m := by
    unfold validateTopic
    rcases h with h | h
    · exact ⟨"cannot be blank", by simp [h]⟩
    · by_cases he : t = ""
      · exact ⟨"cannot be blank", by simp [he]⟩
      · exact ⟨"the length must be between 1 and 255", by simp [he, h]⟩
  obtain ⟨m, hm⟩ := hv
  refine ⟨⟨m, ?_⟩, ?_, ⟨m, ?_⟩, ?_⟩ <;>
    simp [Client.TopicExists, Client.EnsureTopicExists, hm]

/-- Witness for C2 at the empty topic name. -/
theorem invalid_topic_no_request_witness :
    (∃ e, (witnessClient.TopicExists serveNever "").1 = .error ("invalid topic: " ++ e)) ∧
    (witnessClient.TopicExists serveNever "").2 = [] ∧
    (∃ e, (witnessClient.EnsureTopicExists serveNever "").1 = .error ("invalid topic: " ++ e)) ∧
    (witnessClient.EnsureTopicExists serveNever "").2 = [] :=
  invalid_topic_no_request witnessClient serveNever "" (Or.inl rfl)

/-- C9: JSON-encoding a `Message` and decoding the same JSON back
yields the original message, for every payload string. -/
theorem message_json_roundtrip (s : String) :
    decodeMessage (Message.toJson ⟨s⟩) = .ok ⟨s⟩ :=
  decodeMessage_toJson ⟨s⟩

/-- When validation passes, `TopicExists` is the membership scan of
whatever `ListTopics` returned, and it issues exactly the list GET. -/
theorem topicExists_of_list (cli : Client) (serve : Serve) (t : String)
    (hval : validateTopic t = none) (topics : List String)
    (hlist : (cli.ListTopics serve).1 = .ok topics) :
    cli.TopicExists serve t = (.ok (topics.contains t), [listTopicsRequest cli]) := by
  have hfull : cli.ListTopics serve = (.ok topics, [listTopicsRequest cli]) :=
    Prod.ext hlist (listTopics_requests cli serve)
  simp [Client.TopicExists, hval, hfull]

/-- C3: for a valid topic name already present in the server's list,
`EnsureTopicExists` issues exactly one request (the list GET), no
create request, and returns no error. -/
theorem ensureTopicExists_existing_noop (cli : Client) (serve : Serve) (t : String)
    (hval : validateTopic t = none) (topics : List String)
    (hlist : (cli.ListTopics serve).1 = .ok topics) (hmem : t ∈ topics) :
    (cli.EnsureTopicExists serve t).1 = .ok () ∧
    (cli.EnsureTopicExists serve t).2 = [listTopicsRequest cli] := by
  have hTE := topicExists_of_list cli serve t hval topics hlist
  have hc : topics.contains t = true := by
    simpa using hmem
  rw [hc] at hTE
  constructor <;> simp [Client.EnsureTopicExists, hval, hTE]

/-- A transport answering every request with a 200 topic list that
contains `"t"`. -/
def serveListHasT : Serve := fun _ =>
  .ok ⟨200, .ok (some (.obj [("topics", .arr [.str "t"])]))⟩

/-- Witness for C3: with the list containing `"t"`, ensuring `"t"`
issues only the list GET and succeeds. -/
theorem ensureTopicExists_existing_noop_witness :
    (witnessClient.EnsureTopicExists serveListHasT "t").1 = .ok () ∧
    (witnessClient.EnsureTopicExists serveListHasT "t").2 = [listTopicsRequest witnessClient] :=
  ensureTopicExists_existing_noop witnessClient serveListHasT "t" rfl ["t"] rfl
    (by simp)

/-- C4: for a valid topic name absent from the server's list,
`EnsureTopicExists` issues the list GET followed by a create POST whose
body is the JSON of the topic with the given name and the zero-valued
`type` field. -/
theorem ensureTopicExists_absent_creates (cli : Client) (serve : Serve) (t : String)
    (hval : validateTopic t = none) (topics : List String)
    (hlist : (cli.ListTopics serve).1 = .ok topics) (hmem : t ∉ topics) :
    (cli.EnsureTopicExists serve t).2 =
      [listTopicsRequest cli, createTopicRequest cli ⟨t, ""⟩] ∧
    (createTopicRequest cli ⟨t, ""⟩).method = "POST" ∧
    (createTopicRequest cli ⟨t, ""⟩).body =
      some (Json.obj [("name", Json.str t), ("type", Json.str "")]) := by
  have hTE := topicExists_of_list cli serve t hval topics hlist
  have hc : topics.contains t = false := by
    simpa using hmem
  rw [hc] at hTE
  refine ⟨?_, rfl, rfl⟩
  have hcr := createTopic_requests cli serve ⟨t, ""⟩
  rcases hC : cli.CreateTopic serve ⟨t, ""⟩ with ⟨r2, log2⟩
  rw [hC] at hcr
  simp only at hcr
  cases r2 <;> simp [Client.EnsureTopicExists, hval, hTE, hC, hcr]

/-- A transport answering every request with a 200 empty topic list. -/
def serveListEmpty : Serve := fun _ =>
  .ok ⟨200, .ok (some (.obj [("topics", .arr [])]))⟩

/-- Witness for C4: with an empty list, ensuring `"t"` issues the list
GET then the create POST for the topic named `"t"`. -/
theorem ensureTopicExists_absent_creates_witness :
    (witnessClient.EnsureTopicExists serveListEmpty "t").2 =
      [listTopicsRequest witnessClient, createTopicRequest witnessClient ⟨"t", ""⟩] ∧
    (createTopicRequest witnessClient ⟨"t", ""⟩).method = "POST" ∧
    (createTopicRequest witnessClient ⟨"t", ""⟩).body =
      some (Json.obj [("name", Json.str "t"), ("type", Json.str "")]) :=
  ensureTopicExists_absent_creates witnessClient serveListEmpty "t" rfl [] rfl
    (by simp)

/-- C5: `PullMessage` never inspects the HTTP status code — once a
response arrives, its result is a function of the body alone
(`pullDecodeBody`); in particular a non-2xx response whose body is not
valid `PullResponse` JSON comes back as that decode error, not a
status-code error. -/
theorem pullMessage_ignores_status (cli : Client) (serve : Serve) (sub : String)
    (resp : Response) (h : serve (pullMessageRequest cli sub) = .ok resp) :
    (cli.PullMessage serve sub).1 = pullDecodeBody resp.body ∧
    (∀ raw e, resp.body = .ok raw → unmarshalPullResponse raw = .error e →
      (cli.PullMessage serve sub).1 = .error e) := by
  have h1 : (cli.PullMessage serve sub).1 = pullDecodeBody resp.body := by
    simp [Client.PullMessage, h]
  refine ⟨h1, fun raw e hraw herr => ?_⟩
  rw [h1, hraw]
  simp [pullDecodeBody, herr]

/-- A transport answering every request with status 500 and a body
that is not valid JSON. -/
def serveErrorBody : Serve := fun _ => .ok ⟨500, .ok none⟩

/-- Witness for C5 at a 500 response with an unparseable body. -/
theorem pullMessage_ignores_status_witness :
    (witnessClient.PullMessage serveErrorBody "s").1 =
      pullDecodeBody (Response.mk 500 (.ok none)).body ∧
    (∀ raw e, (Response.mk 500 (.ok none)).body = .ok raw →
      unmarshalPullResponse raw = .error e →
      (witnessClient.PullMessage serveErrorBody "s").1 = .error e) :=
  pullMessage_ignores_status witnessClient serveErrorBody "s" ⟨500, .ok none⟩ rfl

/-- C6: `ListTopics` returns an error for every response whose status
is not 200 (naming the status when the body was readable), and on a 200
response whose body is a topics array of strings it returns exactly
those names, in order, with their multiplicity. -/
theorem listTopics_spec (cli : Client) (serve : Serve) (resp : Response)
    (h : serve (listTopicsRequest cli) = .ok resp) :
    (resp.statusCode ≠ 200 → ∃ e, (cli.ListTopics serve).1 = .error e) ∧
    (∀ raw, resp.body = .ok raw → resp.statusCode ≠ 200 →
      (cli.ListTopics serve).1 =
        .error ("failed to list topics, status code: " ++ toString resp.statusCode)) ∧
    (∀ names, resp.statusCode = 200 →
      resp.body = .ok (some (Json.obj [("topics", Json.arr (names.map Json.str))])) →
      (cli.ListTopics serve).1 = .ok names) := by
  refine ⟨?_, ?_, ?_⟩
  · intro h200
    rcases hb : resp.body with e | raw
    · exact ⟨e, by simp [Client.ListTopics, h, hb]⟩
    · exact ⟨"failed to list topics, status code: " ++ toString resp.statusCode,
        by simp [Client.ListTopics, h, hb, h200]⟩
  · intro raw hb h200
    simp [Client.ListTopics, h, hb, h200]
  · intro names h200 hb
    have hdec : unmarshalListTopicsResponse
        (some (Json.obj [("topics", Json.arr (names.map Json.str))])) = .ok ⟨names⟩ := by
      simp [unmarshalListTopicsResponse, decodeListTopicsResponse, jsonLookup,
        decodeStringList, decodeStringElems_strs, Except.map]
    simp [Client.ListTopics, h, hb, h200, hdec]

/-- A transport answering every request with a 200 topic list
`["a", "b"]`. -/
def serveListAB : Serve := fun _ =>
  .ok ⟨200, .ok (some (.obj [("topics", .arr [.str "a", .str "b"])]))⟩

/-- Witness for C6 at a 200 response listing `"a"` and `"b"`. -/
theorem listTopics_spec_witness :
    ((200 : Nat) ≠ 200 → ∃ e, (witnessClient.ListTopics serveListAB).1 = .error e) ∧
    (∀ raw, (Response.mk 200 (.ok (some (.obj [("topics",
        .arr [.str "a", .str "b"])])))).body = .ok raw → (200 : Nat) ≠ 200 →
      (witnessClient.ListTopics serveListAB).1 =
        .error ("failed to list topics, status code: " ++ toString (200 : Nat))) ∧
    (∀ names, (200 : Nat) = 200 →
      (Response.mk 200 (.ok (some (.obj [("topics",
        .arr [.str "a", .str "b"])])))).body =
        .ok (some (Json.obj [("topics", Json.arr (names.map Json.str))])) →
      (witnessClient.ListTopics serveListAB).1 = .ok names) :=
  listTopics_spec witnessClient serveListAB
    ⟨200, .ok (some (.obj [("topics", .arr [.str "a", .str "b"])]))⟩ rfl

/-- C10: when `PullMessage` receives a response — of any status —
whose body is a JSON object with no `message` key (for instance the
empty object), it returns the zero-valued message with no error. -/
theorem pullMessage_missing_message_ok (cli : Client) (serve : Serve) (sub : String)
    (resp : Response) (fields : List (String × Json))
    (h : serve (pullMessageRequest cli sub) = .ok resp)
    (hbody : resp.body = .ok (some (Json.obj fields)))
    (hmsg : jsonLookup fields "message" = none) :
    (cli.PullMessage serve sub).1 = .ok ⟨""⟩ := by
  simp [Client.PullMessage, h, pullDecodeBody, hbody, unmarshalPullResponse,
    decodePullResponse, hmsg]

/-- A transport answering every request with status 404 and the empty
JSON object as body. -/
def serveEmptyJsonObj : Serve := fun _ => .ok ⟨404, .ok (some (.obj []))⟩

/-- Witness for C10: a 404 response with body the empty JSON object is
reported as a successful pull of the empty message. -/
theorem pullMessage_missing_message_ok_witness :
    (witnessClient.PullMessage serveEmptyJsonObj "s").1 = .ok ⟨""⟩ :=
  pullMessage_missing_message_ok witnessClient serveEmptyJsonObj "s"
    ⟨404, .ok (some (.obj []))⟩ [] rfl rfl rfl

/-- C7: for a valid topic name, `GetMessages` issues exactly one GET
request carrying the `Content-Type: application/json` header, returns a
status-naming error for every non-200 status, and on a 200 response
whose body is a `messages` array of `data` objects returns exactly
those messages, in order. -/
theorem getMessages_spec (cli : Client) (serve : Serve) (t : String) (resp : Response)
    (hval : validateTopic t = none)
    (h : serve (getMessagesRequest cli t) = .ok resp) :
    (cli.GetMessages serve t).2 = [getMessagesRequest cli t] ∧
    (getMessagesRequest cli t).method = "GET" ∧
    (getMessagesRequest cli t).headers = [("Content-Type", "application/json")] ∧
    (resp.statusCode ≠ 200 →
      (cli.GetMessages serve t).1 =
        .error ("failed to get messages, status code: " ++ toString resp.statusCode)) ∧
    (∀ (datas : List String), resp.statusCode = 200 →
      resp.body = .ok (some (Json.obj [("messages",
        Json.arr (datas.map (fun s => Json.obj [("data", Json.str s)])))])) →
      (cli.GetMessages serve t).1 = .ok (datas.map Message.mk)) := by
  have hlog : (cli.GetMessages serve t).2 = [getMessagesRequest cli t] := by
    simp only [Client.GetMessages, hval]
    by_cases h200 : resp.statusCode = 200
    · rcases hb : resp.body with e | raw
      · simp [h, hb, h200]
      · rcases hu : unmarshalGetMessagesResponse raw with e | r <;> simp [h, hb, hu, h200]
    · simp [h, h200]
  refine ⟨hlog, rfl, rfl, ?_, ?_⟩
  · intro h200
    simp [Client.GetMessages, hval, h, h200]
  · intro datas h200 hb
    have hdec : unmarshalGetMessagesResponse (some (Json.obj [("messages",
        Json.arr (datas.map (fun s => Json.obj [("data", Json.str s)])))])) =
        .ok ⟨datas.map Message.mk⟩ := by
      simp [unmarshalGetMessagesResponse, decodeGetMessagesResponse, jsonLookup,
        decodeMessageList, decodeMessageElems_objs, Except.map]
    simp [Client.GetMessages, hval, h, h200, hb, hdec]

/-- A transport answering every request with a 200 response whose body
is one message with data `"hi"`. -/
def serveMsgsHi : Serve := fun _ =>
  .ok ⟨200, .ok (some (.obj [("messages", .arr [.obj [("data", .str "hi")]])]))⟩

/-- Witness for C7 at topic `"x"` and a 200 response carrying one
message `"hi"`. -/
theorem getMessages_spec_witness :
    (witnessClient.GetMessages serveMsgsHi "x").2 = [getMessagesRequest witnessClient "x"] ∧
    (getMessagesRequest witnessClient "x").method = "GET" ∧
    (getMessagesRequest witnessClient "x").headers = [("Content-Type", "application/json")] ∧
    ((200 : Nat) ≠ 200 →
      (witnessClient.GetMessages serveMsgsHi "x").1 =
        .error ("failed to get messages, status code: " ++ toString (200 : Nat))) ∧
    (∀ (datas : List String), (200 : Nat) = 200 →
      (Response.mk 200 (.ok (some (.obj [("messages",
        .arr [.obj [("data", .str "hi")]])])))).body =
        .ok (some (Json.obj [("messages",
          Json.arr (datas.map (fun s => Json.obj [("data", Json.str s)])))])) →
      (witnessClient.GetMessages serveMsgsHi "x").1 = .ok (datas.map Message.mk)) :=
  getMessages_spec witnessClient serveMsgsHi "x"
    ⟨200, .ok (some (.obj [("messages", .arr [.obj [("data", .str "hi")]])]))⟩ rfl rfl

/-- `http.Header.Set` keeps every header pair whose key differs from
the canonical form of the one being set. -/
theorem setHeader_preserves (r : Request) (k v k' v' : String)
    (hmem : (k', v') ∈ r.headers) (hne : k' ≠ canonicalMIMEHeaderKey k) :
    (k', v') ∈ (r.setHeader k v).headers := by
  simp only [Request.setHeader, List.mem_append]
  exact Or.inl (List.mem_filter.mpr ⟨hmem, by simp [hne]⟩)

/-- `http.Header.Set` stores the value under the canonical form of the
key. -/
theorem setHeader_mem (r : Request) (k v : String) :
    (canonicalMIMEHeaderKey k, v) ∈ (r.setHeader k v).headers := by
  simp [Request.setHeader]

/-- Setting further headers whose canonical keys all differ from `k`
keeps `(k, v)` on the request. -/
theorem foldl_setHeader_preserves (hs : List (String × String)) :
    ∀ (r : Request) (k v : String), (k, v) ∈ r.headers →
      k ∉ hs.map (fun kv => canonicalMIMEHeaderKey kv.1) →
      (k, v) ∈ (hs.foldl (fun r kv => r.setHeader kv.1 kv.2) r).headers := by
  induction hs with
  | nil => intro r k v hmem _; simpa using hmem
  | cons p ps ih =>
    intro r k v hmem hnot
    simp only [List.map_cons, List.mem_cons] at hnot
    push_neg at hnot
    obtain ⟨hne, hnot2⟩ := hnot
    simp only [List.foldl_cons]
    exact ih (r.setHeader p.1 p.2) k v (setHeader_preserves r p.1 p.2 k v hmem hne) hnot2

/-- Folding `Header.Set` over a map whose keys canonicalize to
pairwise distinct names ends with every value of the map stored on the
request under its key's canonical form. -/
theorem foldl_setHeader_all (hs : List (String × String)) :
    ∀ (r : Request), (hs.map (fun kv => canonicalMIMEHeaderKey kv.1)).Nodup →
      ∀ kv ∈ hs, (canonicalMIMEHeaderKey kv.1, kv.2) ∈
        (hs.foldl (fun r kv => r.setHeader kv.1 kv.2) r).headers := by
  induction hs with
  | nil => intro r _ kv hkv; simp at hkv
  | cons p ps ih =>
    intro r hnodup kv hkv
    simp only [List.map_cons, List.nodup_cons] at hnodup
    obtain ⟨hnotin, hnodup2⟩ := hnodup
    simp only [List.foldl_cons]
    rcases List.mem_cons.mp hkv with hh | hh
    · subst hh
      exact foldl_setHeader_preserves ps (r.setHeader kv.1 kv.2)
        (canonicalMIMEHeaderKey kv.1) kv.2 (setHeader_mem r kv.1 kv.2) hnotin
    · exact ih (r.setHeader p.1 p.2) hnodup2 kv hh

/-- Counterexample to C8 as stated: a Go map with the two distinct
keys `x-a` and `X-A` (so the verbatim keys are Nodup) canonicalizes
both to `X-A`, and `http.Header.Set` keeps only the last value — the
pair `(x-a, 1)` of the map is NOT on the outgoing request, under
neither its verbatim nor its canonical key. -/
theorem publishMessage_headers_counterexample :
    ((([("x-a", "1"), ("X-A", "2")] : List (String × String)).map Prod.fst).Nodup) ∧
    ("x-a", "1") ∈ ([("x-a", "1"), ("X-A", "2")] : List (String × String)) ∧
    (publishRequest witnessClient "t" ⟨"m"⟩ [("x-a", "1"), ("X-A", "2")]).headers
      = [("X-A", "2")] ∧
    ("x-a", "1") ∉ (publishRequest witnessClient "t" ⟨"m"⟩
      [("x-a", "1"), ("X-A", "2")]).headers ∧
    ("X-A", "1") ∉ (publishRequest witnessClient "t" ⟨"m"⟩
      [("x-a", "1"), ("X-A", "2")]).headers := by
  refine ⟨by decide, by decide, ?_, by decide, by decide⟩
  decide

/-- C8 (amended): the header-carrying `PublishMessage` sends exactly
one request, and when the map's keys canonicalize to pairwise distinct
MIME header names — in particular whenever no two keys differ only in
letter case — every key/value pair of the map is set on that outgoing
request, the key in its canonical MIME form. -/
theorem publishMessage_sets_all_headers (cli : Client) (serve : Serve)
    (topicName : String) (message : Message) (headers : List (String × String))
    (hnodup : (headers.map (fun kv => canonicalMIMEHeaderKey kv.1)).Nodup) :
    (cli.PublishMessage serve topicName message headers).2 =
      [publishRequest cli topicName message headers] ∧
    ∀ kv ∈ headers, (canonicalMIMEHeaderKey kv.1, kv.2) ∈
      (publishRequest cli topicName message headers).headers := by
  constructor
  · simp only [Client.PublishMessage]
    rcases h : serve (publishRequest cli topicName message headers) with e | resp
    · simp [h]
    · by_cases h201 : resp.statusCode = 201 <;> simp [h, h201]
  · intro kv hkv
    simp only [publishRequest]
    exact foldl_setHeader_all headers _ hnodup kv hkv

/-- Witness for amended C8 at a two-entry header map with distinct
canonical keys. -/
theorem publishMessage_sets_all_headers_witness :
    (witnessClient.PublishMessage serveNever "t" ⟨"m"⟩
        [("Authorization", "Bearer abc"), ("X-Trace", "1")]).2 =
      [publishRequest witnessClient "t" ⟨"m"⟩
        [("Authorization", "Bearer abc"), ("X-Trace", "1")]] ∧
    ∀ kv ∈ [("Authorization", "Bearer abc"), ("X-Trace", "1")],
      (canonicalMIMEHeaderKey kv.1, kv.2) ∈ (publishRequest witnessClient "t" ⟨"m"⟩
        [("Authorization", "Bearer abc"), ("X-Trace", "1")]).headers :=
  publishMessage_sets_all_headers witnessClient serveNever "t" ⟨"m"⟩
    [("Authorization", "Bearer abc"), ("X-Trace", "1")] (by decide)
